import Mathlib

/-!
Verification of the brave-core ad-history record store and the
eligible-ads priority bucketer.

The development shallowly embeds:
* `SortCreativeAdsIntoBucketsByPriority` and `HighestPriorityCreativeAds`
  (serving/eligible_ads/priority/priority.h), with `base::flat_map`
  modelled as a key-sorted association list;
* `database::table::AdHistory` (history/ad_history_database_table.cc):
  column binding, row decoding, batched saves, the SQL queries
  (denoted as functions over a table of rows), and purge.

Machine integers are modelled as `Int`; Chrome `base::Time` as a
microseconds-since-epoch integer.
-/

/-- Model of a creative ad as far as the priority bucketer reads it: the
C++ code is a template over any record with an `int priority` field. -/
structure CreativeAdInfo where
  creative_instance_id : String
  priority : Int
deriving DecidableEq

/-- Association list standing in for
`base::flat_map<int, CreativeAdList>`: keys kept sorted and unique. -/
abbrev PriorityBuckets := List (Int × List CreativeAdInfo)

/-- Model of `buckets[creative_ad.priority].push_back(creative_ad)` on a
`base::flat_map`: find (or insert, preserving sorted unique keys) the
entry for `p` and append `ad` at its end. -/
def bucketUpsert (p : Int) (ad : CreativeAdInfo) : PriorityBuckets → PriorityBuckets
  | [] => [(p, [ad])]
  | (q, ads) :: rest =>
    if p < q then (p, [ad]) :: (q, ads) :: rest
    else if p = q then (q, ads ++ [ad]) :: rest
    else (q, ads) :: bucketUpsert p ad rest

/-- Loop body of `SortCreativeAdsIntoBucketsByPriority`: ads with a
priority of 0 are not included, every other ad is pushed onto the bucket
keyed by its priority. -/
def bucketStep (buckets : PriorityBuckets) (creative_ad : CreativeAdInfo) :
    PriorityBuckets :=
  if creative_ad.priority = 0 then buckets
  else bucketUpsert creative_ad.priority creative_ad buckets

/-- Embedding of `SortCreativeAdsIntoBucketsByPriority` from
`priority.h`. -/
def SortCreativeAdsIntoBucketsByPriority (creative_ads : List CreativeAdInfo) :
    PriorityBuckets :=
  creative_ads.foldl bucketStep []

/-- Embedding of `HighestPriorityCreativeAds` from `priority.h`: the
contents of `buckets.cbegin()` (the smallest key of the `flat_map`), or
the empty list when there are no buckets. -/
def HighestPriorityCreativeAds (creative_ads : List CreativeAdInfo) :
    List CreativeAdInfo :=
  match SortCreativeAdsIntoBucketsByPriority creative_ads with
  | [] => []
  | b :: _ => b.2

/-- Keys of a bucket map, in order. -/
def bucketKeys (b : PriorityBuckets) : List Int := b.map (fun e => e.1)

/-- Contents of the first bucket keyed `p` (keys are unique in a
`flat_map`, so first match is the match). -/
def bucketContents : PriorityBuckets → Int → List CreativeAdInfo
  | [], _ => []
  | (q, ads) :: rest, p => if q = p then ads else bucketContents rest p

/-- Key-sortedness invariant of the `flat_map` model. -/
def BucketsSorted (b : PriorityBuckets) : Prop :=
  List.Pairwise (fun e f => e.1 < f.1) b

/-- Ad types recognised by the history table. The enumeration itself is
declared outside the provided sources; its members follow the spec's
data model. -/
inductive AdType
  | undefined
  | notificationAd
  | newTabPageAd
  | promotedContentAd
  | inlineContentAd
  | searchResultAd
deriving DecidableEq

/-- Confirmation types recognised by the history table. The enumeration
itself is declared outside the provided sources; its members follow the
spec's data model and the strings named by the SQL in
`GetHighestRankedPlacementsForDateRange`. -/
inductive ConfirmationType
  | undefined
  | clicked
  | dismissed
  | viewedImpression
  | servedImpression
  | landed
deriving DecidableEq

/-- Modelled from the spec: `ToString(AdType)` is defined outside the
provided sources; per §4.1 enum fields are encoded as their canonical
lowercase string name. -/
def AdType.ToString : AdType → String
  | .undefined => "undefined"
  | .notificationAd => "ad_notification"
  | .newTabPageAd => "new_tab_page_ad"
  | .promotedContentAd => "promoted_content_ad"
  | .inlineContentAd => "inline_content_ad"
  | .searchResultAd => "search_result_ad"

/-- Modelled from the spec: `ToAdType(string)` is defined outside the
provided sources; per §4.1 decoding is a strict lookup that fails closed
(an unknown string maps to the designated undefined member). -/
def ToAdType (value : String) : AdType :=
  if value = "ad_notification" then AdType.notificationAd
  else if value = "new_tab_page_ad" then AdType.newTabPageAd
  else if value = "promoted_content_ad" then AdType.promotedContentAd
  else if value = "inline_content_ad" then AdType.inlineContentAd
  else if value = "search_result_ad" then AdType.searchResultAd
  else AdType.undefined

/-- Modelled from the spec: `ToString(ConfirmationType)` is defined
outside the provided sources; encoded as the canonical lowercase names,
matching the strings the ranking SQL switches on. -/
def ConfirmationType.ToString : ConfirmationType → String
  | .undefined => "undefined"
  | .clicked => "click"
  | .dismissed => "dismiss"
  | .viewedImpression => "view"
  | .servedImpression => "served"
  | .landed => "landed"

/-- Modelled from the spec: `ToConfirmationType(string)` is defined
outside the provided sources; strict lookup failing closed to the
undefined member. -/
def ToConfirmationType (value : String) : ConfirmationType :=
  if value = "click" then ConfirmationType.clicked
  else if value = "dismiss" then ConfirmationType.dismissed
  else if value = "view" then ConfirmationType.viewedImpression
  else if value = "served" then ConfirmationType.servedImpression
  else if value = "landed" then ConfirmationType.landed
  else ConfirmationType.undefined

/-- Chrome `base::Time`, modelled per the spec's fixed-point
microseconds-since-epoch convention. -/
structure Time where
  microseconds : Int
deriving DecidableEq

/-- Modelled from the spec: `ToChromeTimestampFromTime` from
`common/time/time_util.h` is not among the provided sources; the spec
says timestamps are encoded as a platform-epoch integer. -/
def ToChromeTimestampFromTime (time : Time) : Int :=
  time.microseconds

/-- Modelled from the spec: `ToTimeFromChromeTimestamp`, the lossless
inverse of `ToChromeTimestampFromTime`. -/
def ToTimeFromChromeTimestamp (timestamp : Int) : Time :=
  ⟨timestamp⟩

/-- Chromium `GURL`, modelled (it is outside this repository) by the
URL's spec string; `GURL::spec()` returns that string. -/
structure GURL where
  spec : String
deriving DecidableEq

/-- One ad-lifecycle event, per `AdHistoryItemInfo` as read and written
by the table code. -/
structure AdHistoryItemInfo where
  created_at : Time
  type : AdType
  confirmation_type : ConfirmationType
  placement_id : String
  creative_instance_id : String
  creative_set_id : String
  campaign_id : String
  advertiser_id : String
  segment : String
  title : String
  description : String
  target_url : GURL
deriving DecidableEq

/-- Modelled from the spec: `AdHistoryItemInfo::IsValid` is defined
outside the provided sources; per §3 a record is valid only if every
identifier field and `target_url` is non-empty/well-formed and the two
enum fields are members of their enumerations. -/
def AdHistoryItemInfo.IsValid (item : AdHistoryItemInfo) : Bool :=
  decide (item.type ≠ AdType.undefined ∧
    item.confirmation_type ≠ ConfirmationType.undefined ∧
    item.placement_id ≠ "" ∧ item.creative_instance_id ≠ "" ∧
    item.creative_set_id ≠ "" ∧ item.campaign_id ≠ "" ∧
    item.advertiser_id ≠ "" ∧ item.target_url.spec ≠ "")

/-- Typed value bound into or read from a statement
(`mojom::DBValue`). -/
inductive DBValue
  | int64 (value : Int)
  | string (value : String)
deriving DecidableEq

/-- Operation type of a statement (`mojom::DBStatementInfo::
OperationType`): `kRun` expects no rows, `kStep` expects typed rows. -/
inductive OperationType
  | kRun
  | kStep
deriving DecidableEq

/-- Declared column types for a step statement
(`mojom::DBBindColumnType`). -/
inductive DBBindColumnType
  | kInt64
  | kString
deriving DecidableEq

/-- One statement of a transaction (`mojom::DBStatementInfo`). Bound
values are listed in binding-index order. -/
structure DBStatementInfo where
  operation_type : OperationType
  sql : String
  bind_columns : List DBValue
  bind_column_types : List DBBindColumnType
deriving DecidableEq

/-- One transaction (`mojom::DBTransactionInfo`): an ordered list of
statements executed atomically by the external engine. -/
structure DBTransactionInfo where
  statements : List DBStatementInfo
deriving DecidableEq

/-- Result code reported by the engine
(`mojom::DBStatementResultInfo::ResultCode`). -/
inductive ResultCode
  | kSuccess
  | kFailedToExecuteStatement
deriving DecidableEq

/-- Result of executing a statement
(`mojom::DBStatementResultInfo`): a result code and, for step
statements, the rows. -/
structure DBStatementResultInfo where
  result_code : ResultCode
  rows : List (List DBValue)
deriving DecidableEq

/-- Modelled from the spec: `ColumnInt64` from
`common/database/database_column_util.h` is not among the provided
sources; §6 specifies rows addressable by zero-based column index with
typed accessors. -/
def ColumnInt64 (mojom_row : List DBValue) (column : Nat) : Int :=
  match mojom_row.getD column (DBValue.int64 0) with
  | DBValue.int64 value => value
  | DBValue.string _ => 0

/-- Modelled from the spec: `ColumnString`, the string-typed column
accessor. -/
def ColumnString (mojom_row : List DBValue) (column : Nat) : String :=
  match mojom_row.getD column (DBValue.string "") with
  | DBValue.string value => value
  | DBValue.int64 _ => ""

/-- Embedding of `BindColumnTypes`: the declared column types of the
twelve selected columns. -/
def BindColumnTypesList : List DBBindColumnType :=
  [DBBindColumnType.kInt64, DBBindColumnType.kString, DBBindColumnType.kString,
   DBBindColumnType.kString, DBBindColumnType.kString, DBBindColumnType.kString,
   DBBindColumnType.kString, DBBindColumnType.kString, DBBindColumnType.kString,
   DBBindColumnType.kString, DBBindColumnType.kString, DBBindColumnType.kString]

/-- Values bound for one ad history item by the loop body of
`BindColumns`: the twelve columns in binding order. -/
def BindColumnsForItem (item : AdHistoryItemInfo) : List DBValue :=
  [DBValue.int64 (ToChromeTimestampFromTime item.created_at),
   DBValue.string (AdType.ToString item.type),
   DBValue.string (ConfirmationType.ToString item.confirmation_type),
   DBValue.string item.placement_id,
   DBValue.string item.creative_instance_id,
   DBValue.string item.creative_set_id,
   DBValue.string item.campaign_id,
   DBValue.string item.advertiser_id,
   DBValue.string item.segment,
   DBValue.string item.title,
   DBValue.string item.description,
   DBValue.string item.target_url.spec]

/-- Embedding of `BindColumns`: invalid items are skipped (with a
diagnostic, not modelled), valid items bind their twelve columns at
consecutive indices and bump `row_count`. Returns the bound values in
index order together with `row_count`. -/
def BindColumns (ad_history : List AdHistoryItemInfo) : List DBValue × Nat :=
  ad_history.foldl
    (fun acc ad_history_item =>
      if ad_history_item.IsValid then
        (acc.1 ++ BindColumnsForItem ad_history_item, acc.2 + 1)
      else acc)
    ([], 0)

/-- Embedding of `FromMojomRow`: decode one row at the fixed column
positions. -/
def FromMojomRow (mojom_row : List DBValue) : AdHistoryItemInfo :=
  { created_at := ToTimeFromChromeTimestamp (ColumnInt64 mojom_row 0),
    type := ToAdType (ColumnString mojom_row 1),
    confirmation_type := ToConfirmationType (ColumnString mojom_row 2),
    placement_id := ColumnString mojom_row 3,
    creative_instance_id := ColumnString mojom_row 4,
    creative_set_id := ColumnString mojom_row 5,
    campaign_id := ColumnString mojom_row 6,
    advertiser_id := ColumnString mojom_row 7,
    segment := ColumnString mojom_row 8,
    title := ColumnString mojom_row 9,
    description := ColumnString mojom_row 10,
    target_url := GURL.mk (ColumnString mojom_row 11) }

/-- Embedding of `GetCallback`: a missing or non-success result reports
no result; otherwise each row is decoded and invalid items are skipped
(with a diagnostic, not modelled) while the rest are kept. -/
def GetCallback (mojom_statement_result : Option DBStatementResultInfo) :
    Option (List AdHistoryItemInfo) :=
  match mojom_statement_result with
  | none => none
  | some result =>
    if result.result_code = ResultCode.kSuccess then
      some (result.rows.foldl
        (fun ad_history mojom_row =>
          if (FromMojomRow mojom_row).IsValid then
            ad_history ++ [FromMojomRow mojom_row]
          else ad_history)
        [])
    else none

/-- Table name constant `kTableName`. -/
def kTableName : String := "ad_history"

/-- Batch size constant `kDefaultBatchSize`, the `batch_size_` set by the
`AdHistory` constructor. -/
def kDefaultBatchSize : Nat := 50

/-- Modelled from the spec: `SplitVector` from
`common/containers/container_util.h` is not among the provided sources;
per §4.4 the input is grouped into consecutive fixed-size batches. -/
def SplitVector {α : Type} (xs : List α) (n : Nat) : List (List α) :=
  if h : xs.length = 0 ∨ n = 0 then []
  else xs.take n :: SplitVector (xs.drop n) n
termination_by xs.length
decreasing_by
  push_neg at h
  simp only [List.length_drop]
  omega

/-- Modelled from the spec: `BuildBindColumnPlaceholders` from
`common/database/database_column_util.h` is not among the provided
sources; it renders `row_count` value tuples of `column_count`
placeholders each, per §4.2's batched-insert shape. -/
def BuildBindColumnPlaceholders (column_count : Nat) (row_count : Nat) : String :=
  String.intercalate ", "
    (List.replicate row_count
      ("(" ++ String.intercalate ", " (List.replicate column_count "?") ++ ")"))

/-- Embedding of `AdHistory::BuildInsertSql`: the insert statement text
for one batch, with one value tuple per valid record
(`row_count = BindColumns(..)`). -/
def AdHistory.BuildInsertSql (ad_history : List AdHistoryItemInfo) : String :=
  "INSERT INTO " ++ kTableName ++
    " (created_at, type, confirmation_type, placement_id, creative_instance_id, creative_set_id, campaign_id, advertiser_id, segment, title, description, target_url) VALUES " ++
    BuildBindColumnPlaceholders 12 (BindColumns ad_history).2 ++ ";"

/-- The statement assembled by `AdHistory::Insert` for one batch: a
`kRun` statement whose SQL is `BuildInsertSql` and whose bound values
are those produced by `BindColumns`. -/
def AdHistory.InsertStatement (ad_history : List AdHistoryItemInfo) :
    DBStatementInfo :=
  { operation_type := OperationType.kRun,
    sql := AdHistory.BuildInsertSql ad_history,
    bind_columns := (BindColumns ad_history).1,
    bind_column_types := [] }

/-- Embedding of `AdHistory::Insert`: an empty batch appends nothing,
otherwise one insert statement is appended to the transaction. -/
def AdHistory.Insert (mojom_transaction : DBTransactionInfo)
    (ad_history : List AdHistoryItemInfo) : DBTransactionInfo :=
  if ad_history.isEmpty then mojom_transaction
  else ⟨mojom_transaction.statements ++ [AdHistory.InsertStatement ad_history]⟩

/-- Transaction built by `AdHistory::Save`: `none` when the input list
is empty (the engine is never touched), otherwise the single transaction
holding one insert statement per batch of `SplitVector`. -/
def AdHistory.SaveTransaction (batch_size : Nat)
    (ad_history : List AdHistoryItemInfo) : Option DBTransactionInfo :=
  if ad_history.isEmpty then none
  else some ((SplitVector ad_history batch_size).foldl AdHistory.Insert ⟨[]⟩)

/-- Completion value of `AdHistory::Save`: immediate success on empty
input; otherwise the transaction is submitted to the engine
(`RunTransaction`, external, modelled as `engine`) and its result is
reported. -/
def AdHistory.Save (engine : DBTransactionInfo → Bool) (batch_size : Nat)
    (ad_history : List AdHistoryItemInfo) : Bool :=
  match AdHistory.SaveTransaction batch_size ad_history with
  | none => true
  | some mojom_transaction => engine mojom_transaction

/-- Column list shared by the three select statements. -/
def SelectColumnsClause : String :=
  "SELECT created_at, type, confirmation_type, placement_id, creative_instance_id, creative_set_id, campaign_id, advertiser_id, segment, title, description, target_url FROM "

/-- SQL text built by `AdHistory::GetForDateRange` (quote characters of
the original text are not rendered). -/
def GetForDateRangeSql (from_time to_time : Int) : String :=
  SelectColumnsClause ++ kTableName ++ " WHERE created_at BETWEEN " ++
    toString from_time ++ " AND " ++ toString to_time ++
    " ORDER BY created_at DESC;"

/-- SQL text built by `AdHistory::GetHighestRankedPlacementsForDateRange`
(quote characters of the original text are not rendered). -/
def GetHighestRankedPlacementsSql (from_time to_time : Int) : String :=
  "WITH PrioritizedAdHistory AS (SELECT *, CASE confirmation_type WHEN click THEN 1 WHEN dismiss THEN 2 WHEN view THEN 3 ELSE 0 END AS priority FROM " ++
    kTableName ++ " WHERE created_at BETWEEN " ++ toString from_time ++
    " AND " ++ toString to_time ++
    "), FilteredAdHistory AS (SELECT * FROM PrioritizedAdHistory as ad_history WHERE priority = (SELECT MIN(priority) FROM PrioritizedAdHistory AS other_ad_history WHERE other_ad_history.placement_id = ad_history.placement_id AND other_ad_history.priority > 0)) " ++
    SelectColumnsClause ++ "FilteredAdHistory ORDER BY created_at DESC;"

/-- SQL text built by `AdHistory::GetForCreativeInstanceId` (quote
characters of the original text are not rendered). -/
def GetForCreativeInstanceIdSql (creative_instance_id : String) : String :=
  SelectColumnsClause ++ kTableName ++ " WHERE creative_instance_id = " ++
    creative_instance_id ++ ";"

/-- Embedding of `AdHistory::GetForDateRange`: the transaction holding
one step statement, submitted with `GetCallback` as completion. -/
def AdHistory.GetForDateRange (from_time to_time : Int) :
    DBTransactionInfo ×
      (Option DBStatementResultInfo → Option (List AdHistoryItemInfo)) :=
  (⟨[{ operation_type := OperationType.kStep,
       sql := GetForDateRangeSql from_time to_time,
       bind_columns := [],
       bind_column_types := BindColumnTypesList }]⟩,
   GetCallback)

/-- Embedding of `AdHistory::GetHighestRankedPlacementsForDateRange`:
the transaction holding one step statement, submitted with `GetCallback`
as completion. -/
def AdHistory.GetHighestRankedPlacementsForDateRange (from_time to_time : Int) :
    DBTransactionInfo ×
      (Option DBStatementResultInfo → Option (List AdHistoryItemInfo)) :=
  (⟨[{ operation_type := OperationType.kStep,
       sql := GetHighestRankedPlacementsSql from_time to_time,
       bind_columns := [],
       bind_column_types := BindColumnTypesList }]⟩,
   GetCallback)

/-- Embedding of `AdHistory::GetForCreativeInstanceId`: the transaction
holding one step statement, submitted with `GetCallback` as
completion. -/
def AdHistory.GetForCreativeInstanceId (creative_instance_id : String) :
    DBTransactionInfo ×
      (Option DBStatementResultInfo → Option (List AdHistoryItemInfo)) :=
  (⟨[{ operation_type := OperationType.kStep,
       sql := GetForCreativeInstanceIdSql creative_instance_id,
       bind_columns := [],
       bind_column_types := BindColumnTypesList }]⟩,
   GetCallback)

/-- One stored row of the `ad_history` table, as the SQL queries see it:
`created_at` as the bound integer timestamp, the other eleven columns as
their bound strings. -/
structure AdHistoryRow where
  created_at : Int
  type : String
  confirmation_type : String
  placement_id : String
  creative_instance_id : String
  creative_set_id : String
  campaign_id : String
  advertiser_id : String
  segment : String
  title : String
  description : String
  target_url : String
deriving DecidableEq

/-- Denotation of the CASE expression of the ranking query: the numeric
priority assigned to a `confirmation_type` string. -/
def CasePriority (confirmation_type : String) : Int :=
  if confirmation_type = "click" then 1
  else if confirmation_type = "dismiss" then 2
  else if confirmation_type = "view" then 3
  else 0

/-- Denotation of the `PrioritizedAdHistory` CTE's row set: the rows of
the table whose `created_at` lies in the inclusive BETWEEN range. -/
def PrioritizedAdHistoryRows (table : List AdHistoryRow)
    (from_time to_time : Int) : List AdHistoryRow :=
  table.filter fun row =>
    decide (from_time ≤ row.created_at) && decide (row.created_at ≤ to_time)

/-- Denotation of the SQL MIN aggregate over a set of integers: NULL
(`none`) over the empty set. -/
def minSql : List Int → Option Int
  | [] => none
  | x :: xs => some (xs.foldl min x)

/-- Denotation of the correlated subquery of the ranking query: the
minimum positive priority among rows sharing this row's
`placement_id`. -/
def MinPositivePriorityForPlacement (rows : List AdHistoryRow)
    (placement_id : String) : Option Int :=
  minSql
    ((rows.filter fun other =>
        decide (other.placement_id = placement_id) &&
          decide (0 < CasePriority other.confirmation_type)).map
      fun other => CasePriority other.confirmation_type)

/-- Denotation of the `FilteredAdHistory` CTE's row set: keep the rows
whose priority equals the correlated minimum (a NULL minimum compares
unequal, dropping the row). -/
def FilteredAdHistoryRows (table : List AdHistoryRow)
    (from_time to_time : Int) : List AdHistoryRow :=
  (PrioritizedAdHistoryRows table from_time to_time).filter fun row =>
    decide
      (MinPositivePriorityForPlacement
          (PrioritizedAdHistoryRows table from_time to_time)
          row.placement_id =
        some (CasePriority row.confirmation_type))

/-- Descending `created_at` order used by the ORDER BY clauses. -/
def createdAtDesc (a b : AdHistoryRow) : Prop :=
  b.created_at ≤ a.created_at

instance : DecidableRel createdAtDesc := fun a b =>
  inferInstanceAs (Decidable (b.created_at ≤ a.created_at))

instance : IsTotal AdHistoryRow createdAtDesc :=
  ⟨fun a b => le_total b.created_at a.created_at⟩

instance : IsTrans AdHistoryRow createdAtDesc :=
  ⟨fun _ _ _ hab hbc => le_trans hbc hab⟩

/-- Denotation of the full ranking query built by
`AdHistory::GetHighestRankedPlacementsForDateRange`: the filtered rows,
ordered by `created_at` descending. -/
def GetHighestRankedPlacementsQuery (table : List AdHistoryRow)
    (from_time to_time : Int) : List AdHistoryRow :=
  List.insertionSort createdAtDesc (FilteredAdHistoryRows table from_time to_time)

/-- Denotation of the DELETE built by `AdHistory::PurgeExpired` on a
table: rows whose `created_at` is at or before `now - retention` are
removed. The retention period (`kAdHistoryRetentionPeriod.Get()`) is an
external configuration value, passed as a parameter; times are in
microseconds. -/
def AdHistory.PurgeExpiredQuery (now retention : Int)
    (table : List AdHistoryRow) : List AdHistoryRow :=
  table.filter fun row => !decide (row.created_at ≤ now - retention)

/-- Concrete valid record used by witnesses. -/
def sampleAdHistoryItem : AdHistoryItemInfo :=
  { created_at := ⟨1700000000000000⟩,
    type := AdType.notificationAd,
    confirmation_type := ConfirmationType.viewedImpression,
    placement_id := "placement-1",
    creative_instance_id := "creative-instance-1",
    creative_set_id := "creative-set-1",
    campaign_id := "campaign-1",
    advertiser_id := "advertiser-1",
    segment := "segment-1",
    title := "title-1",
    description := "description-1",
    target_url := ⟨"https://brave.com/"⟩ }

/-- Concrete invalid record (empty `placement_id`) used by witnesses. -/
def invalidAdHistoryItem : AdHistoryItemInfo :=
  { sampleAdHistoryItem with placement_id := "" }

/-- Concrete stored row used by witnesses. -/
def sampleAdHistoryRow (created_at : Int)
    (confirmation_type placement_id : String) : AdHistoryRow :=
  { created_at := created_at,
    type := "ad_notification",
    confirmation_type := confirmation_type,
    placement_id := placement_id,
    creative_instance_id := "creative-instance-1",
    creative_set_id := "creative-set-1",
    campaign_id := "campaign-1",
    advertiser_id := "advertiser-1",
    segment := "segment-1",
    title := "title-1",
    description := "description-1",
    target_url := "https://brave.com/" }

theorem bucketUpsert_cons {p q : Int} {ad : CreativeAdInfo}
    {ads : List CreativeAdInfo} {rest : PriorityBuckets} :
    bucketUpsert p ad ((q, ads) :: rest) =
      if p < q then (p, [ad]) :: (q, ads) :: rest
      else if p = q then (q, ads ++ [ad]) :: rest
      else (q, ads) :: bucketUpsert p ad rest := rfl

theorem bucketUpsert_cons_lt {p q : Int} {ad : CreativeAdInfo}
    {ads : List CreativeAdInfo} {rest : PriorityBuckets} (h : p < q) :
    bucketUpsert p ad ((q, ads) :: rest) = (p, [ad]) :: (q, ads) :: rest := by
  rw [bucketUpsert_cons, if_pos h]

theorem bucketUpsert_cons_eq {p : Int} {ad : CreativeAdInfo}
    {ads : List CreativeAdInfo} {rest : PriorityBuckets} :
    bucketUpsert p ad ((p, ads) :: rest) = (p, ads ++ [ad]) :: rest := by
  rw [bucketUpsert_cons]
  simp

theorem bucketUpsert_cons_gt {p q : Int} {ad : CreativeAdInfo}
    {ads : List CreativeAdInfo} {rest : PriorityBuckets} (h : q < p) :
    bucketUpsert p ad ((q, ads) :: rest) = (q, ads) :: bucketUpsert p ad rest := by
  rw [bucketUpsert_cons, if_neg (by omega), if_neg (by omega)]

theorem bucketContents_cons {p q : Int} {ads : List CreativeAdInfo}
    {rest : PriorityBuckets} :
    bucketContents ((q, ads) :: rest) p =
      if q = p then ads else bucketContents rest p := rfl

theorem bucketKeys_upsert {q p : Int} {ad : CreativeAdInfo} :
    ∀ {b : PriorityBuckets},
      q ∈ bucketKeys (bucketUpsert p ad b) ↔ q = p ∨ q ∈ bucketKeys b := by
  intro b
  induction b with
  | nil => simp [bucketUpsert, bucketKeys]
  | cons e rest ih =>
    obtain ⟨k, ads⟩ := e
    rcases lt_trichotomy p k with h1 | h1 | h1
    · rw [bucketUpsert_cons_lt h1]
      simp [bucketKeys]
    · subst h1
      rw [bucketUpsert_cons_eq]
      simp [bucketKeys]
    · rw [bucketUpsert_cons_gt h1]
      simp only [bucketKeys, List.map_cons, List.mem_cons] at ih ⊢
      tauto

theorem bucketsSorted_upsert {p : Int} {ad : CreativeAdInfo} :
    ∀ {b : PriorityBuckets}, BucketsSorted b →
      BucketsSorted (bucketUpsert p ad b) := by
  intro b
  induction b with
  | nil => intro _; simp [bucketUpsert, BucketsSorted]
  | cons e rest ih =>
    obtain ⟨k, ads⟩ := e
    intro hb
    rw [BucketsSorted, List.pairwise_cons] at hb
    obtain ⟨hk, hrest⟩ := hb
    rcases lt_trichotomy p k with h1 | h1 | h1
    · rw [BucketsSorted, bucketUpsert_cons_lt h1, List.pairwise_cons]
      constructor
      · intro f hf
        rcases List.mem_cons.mp hf with h | h
        · subst h; exact h1
        · exact lt_trans h1 (hk f h)
      · rw [List.pairwise_cons]
        exact ⟨hk, hrest⟩
    · subst h1
      rw [BucketsSorted, bucketUpsert_cons_eq, List.pairwise_cons]
      exact ⟨hk, hrest⟩
    · rw [BucketsSorted, bucketUpsert_cons_gt h1, List.pairwise_cons]
      constructor
      · intro f hf
        have hf' : f.1 = p ∨ f.1 ∈ bucketKeys rest := by
          have : f.1 ∈ bucketKeys (bucketUpsert p ad rest) :=
            List.mem_map_of_mem (fun e => e.1) hf
          exact bucketKeys_upsert.mp this
        rcases hf' with h | h
        · rw [h]; omega
        · rcases List.mem_map.mp h with ⟨g, hg, hgf⟩
          rw [← hgf]
          exact hk g hg
      · exact ih hrest

theorem bucketContents_eq_nil_of_lt {p : Int} :
    ∀ {b : PriorityBuckets}, (∀ k ∈ bucketKeys b, p < k) →
      bucketContents b p = [] := by
  intro b
  induction b with
  | nil => intro _; rfl
  | cons e rest ih =>
    obtain ⟨k, ads⟩ := e
    intro h
    have hk : p < k := h k (by simp [bucketKeys])
    rw [bucketContents_cons, if_neg (show ¬k = p by omega)]
    exact ih (fun k' hk' => h k' (by simp [bucketKeys] at hk' ⊢; tauto))

theorem bucketContents_upsert_self {p : Int} {ad : CreativeAdInfo} :
    ∀ {b : PriorityBuckets}, BucketsSorted b →
      bucketContents (bucketUpsert p ad b) p = bucketContents b p ++ [ad] := by
  intro b
  induction b with
  | nil => intro _; simp [bucketUpsert, bucketContents]
  | cons e rest ih =>
    obtain ⟨k, ads⟩ := e
    intro hb
    rw [BucketsSorted, List.pairwise_cons] at hb
    obtain ⟨hk, hrest⟩ := hb
    rcases lt_trichotomy p k with h1 | h1 | h1
    · rw [bucketUpsert_cons_lt h1, bucketContents_cons, if_pos rfl]
      have hnil : bucketContents ((k, ads) :: rest) p = [] := by
        apply bucketContents_eq_nil_of_lt
        intro k' hk'
        simp only [bucketKeys, List.map_cons, List.mem_cons] at hk'
        rcases hk' with h | h
        · omega
        · rcases List.mem_map.mp h with ⟨g, hg, hgf⟩
          have := hk g hg
          omega
      rw [hnil]
      rfl
    · subst h1
      rw [bucketUpsert_cons_eq, bucketContents_cons, if_pos rfl,
        bucketContents_cons, if_pos rfl]
    · rw [bucketUpsert_cons_gt h1, bucketContents_cons,
        if_neg (show ¬k = p by omega), bucketContents_cons,
        if_neg (show ¬k = p by omega)]
      exact ih hrest

theorem bucketContents_upsert_ne {q p : Int} {ad : CreativeAdInfo} (hqp : q ≠ p) :
    ∀ {b : PriorityBuckets},
      bucketContents (bucketUpsert p ad b) q = bucketContents b q := by
  intro b
  induction b with
  | nil =>
    show bucketContents [(p, [ad])] q = bucketContents [] q
    rw [bucketContents_cons, if_neg (show ¬p = q by omega)]
  | cons e rest ih =>
    obtain ⟨k, ads⟩ := e
    rcases lt_trichotomy p k with h1 | h1 | h1
    · rw [bucketUpsert_cons_lt h1, bucketContents_cons,
        if_neg (show ¬p = q by omega)]
    · subst h1
      rw [bucketUpsert_cons_eq, bucketContents_cons, bucketContents_cons,
        if_neg (show ¬p = q by omega), if_neg (show ¬p = q by omega)]
    · rw [bucketUpsert_cons_gt h1, bucketContents_cons, bucketContents_cons]
      by_cases h3 : k = q
      · rw [if_pos h3, if_pos h3]
      · rw [if_neg h3, if_neg h3]
        exact ih

theorem bucketStep_zero {b : PriorityBuckets} {a : CreativeAdInfo}
    (h : a.priority = 0) : bucketStep b a = b := by
  rw [bucketStep, if_pos h]

theorem bucketStep_nonzero {b : PriorityBuckets} {a : CreativeAdInfo}
    (h : a.priority ≠ 0) : bucketStep b a = bucketUpsert a.priority a b := by
  rw [bucketStep, if_neg h]

theorem foldl_bucketStep_sorted (ads : List CreativeAdInfo) :
    ∀ b : PriorityBuckets, BucketsSorted b →
      BucketsSorted (ads.foldl bucketStep b) := by
  induction ads with
  | nil => intro b hb; simpa using hb
  | cons a ads ih =>
    intro b hb
    rw [List.foldl_cons]
    apply ih
    by_cases h : a.priority = 0
    · rw [bucketStep_zero h]; exact hb
    · rw [bucketStep_nonzero h]; exact bucketsSorted_upsert hb

theorem foldl_bucketStep_contents (ads : List CreativeAdInfo) :
    ∀ b : PriorityBuckets, BucketsSorted b → ∀ p : Int, p ≠ 0 →
      bucketContents (ads.foldl bucketStep b) p =
        bucketContents b p ++ ads.filter (fun a => decide (a.priority = p)) := by
  induction ads with
  | nil => intro b _ p _; simp
  | cons a ads ih =>
    intro b hb p hp
    rw [List.foldl_cons, List.filter_cons]
    by_cases h : a.priority = 0
    · have hdp : (decide (a.priority = p)) = false := by
        simp only [decide_eq_false_iff_not]
        omega
      rw [bucketStep_zero h, ih b hb p hp, hdp]
      simp
    · rw [bucketStep_nonzero h]
      have hb' : BucketsSorted (bucketUpsert a.priority a b) :=
        bucketsSorted_upsert hb
      rw [ih _ hb' p hp]
      by_cases hap : a.priority = p
      · subst hap
        rw [bucketContents_upsert_self hb]
        simp
      · have : (decide (a.priority = p)) = false := by
          simp only [decide_eq_false_iff_not]
          exact hap
        rw [bucketContents_upsert_ne (show p ≠ a.priority from fun hh => hap hh.symm),
          this]
        simp

theorem foldl_bucketStep_keys (ads : List CreativeAdInfo) :
    ∀ (b : PriorityBuckets) (q : Int),
      q ∈ bucketKeys (ads.foldl bucketStep b) ↔
        q ∈ bucketKeys b ∨ (q ≠ 0 ∧ ∃ a ∈ ads, a.priority = q) := by
  induction ads with
  | nil => intro b q; simp
  | cons a ads ih =>
    intro b q
    rw [List.foldl_cons]
    by_cases h : a.priority = 0
    · rw [bucketStep_zero h, ih]
      constructor
      · rintro (hq | ⟨hq0, c, hc, hcq⟩)
        · exact Or.inl hq
        · exact Or.inr ⟨hq0, c, List.mem_cons_of_mem _ hc, hcq⟩
      · rintro (hq | ⟨hq0, c, hc, hcq⟩)
        · exact Or.inl hq
        · rcases List.mem_cons.mp hc with rfl | hc'
          · omega
          · exact Or.inr ⟨hq0, c, hc', hcq⟩
    · rw [bucketStep_nonzero h, ih, bucketKeys_upsert]
      constructor
      · rintro ((rfl | hq) | ⟨hq0, c, hc, hcq⟩)
        · exact Or.inr ⟨h, a, List.mem_cons_self a ads, rfl⟩
        · exact Or.inl hq
        · exact Or.inr ⟨hq0, c, List.mem_cons_of_mem _ hc, hcq⟩
      · rintro (hq | ⟨hq0, c, hc, hcq⟩)
        · exact Or.inl (Or.inr hq)
        · rcases List.mem_cons.mp hc with rfl | hc'
          · exact Or.inl (Or.inl hcq.symm)
          · exact Or.inr ⟨hq0, c, hc', hcq⟩

theorem sort_sorted (creative_ads : List CreativeAdInfo) :
    BucketsSorted (SortCreativeAdsIntoBucketsByPriority creative_ads) :=
  foldl_bucketStep_sorted creative_ads [] (by simp [BucketsSorted])

theorem sort_contents (creative_ads : List CreativeAdInfo) {p : Int} (hp : p ≠ 0) :
    bucketContents (SortCreativeAdsIntoBucketsByPriority creative_ads) p =
      creative_ads.filter (fun a => decide (a.priority = p)) := by
  rw [SortCreativeAdsIntoBucketsByPriority,
    foldl_bucketStep_contents creative_ads [] (by simp [BucketsSorted]) p hp]
  rfl

theorem sort_keys (creative_ads : List CreativeAdInfo) (q : Int) :
    q ∈ bucketKeys (SortCreativeAdsIntoBucketsByPriority creative_ads) ↔
      q ≠ 0 ∧ ∃ a ∈ creative_ads, a.priority = q := by
  rw [SortCreativeAdsIntoBucketsByPriority, foldl_bucketStep_keys]
  simp [bucketKeys]

theorem bucket_entry_mem :
    ∀ {b : PriorityBuckets} {q : Int}, q ∈ bucketKeys b →
      (q, bucketContents b q) ∈ b := by
  intro b
  induction b with
  | nil => intro q hq; simp [bucketKeys] at hq
  | cons e rest ih =>
    obtain ⟨k, ads⟩ := e
    intro q hq
    by_cases h : k = q
    · subst h
      rw [bucketContents_cons, if_pos rfl]
      exact List.mem_cons_self _ _
    · have hq' : q ∈ bucketKeys rest := by
        simp only [bucketKeys, List.map_cons, List.mem_cons] at hq
        rcases hq with rfl | hq
        · exact absurd rfl h
        · exact hq
      rw [bucketContents_cons, if_neg h]
      exact List.mem_cons_of_mem _ (ih hq')

theorem bucketsSorted_head_min {k : Int} {l : List CreativeAdInfo}
    {rest : PriorityBuckets} (hb : BucketsSorted ((k, l) :: rest)) :
    ∀ q ∈ bucketKeys ((k, l) :: rest), k ≤ q := by
  intro q hq
  rw [BucketsSorted, List.pairwise_cons] at hb
  simp only [bucketKeys, List.map_cons, List.mem_cons] at hq
  rcases hq with rfl | hq
  · exact le_refl q
  · rcases List.mem_map.mp hq with ⟨g, hg, rfl⟩
    exact le_of_lt (hb.1 g hg)

theorem highest_of_sort_cons {creative_ads : List CreativeAdInfo} {k : Int}
    {l : List CreativeAdInfo} {rest : PriorityBuckets}
    (h : SortCreativeAdsIntoBucketsByPriority creative_ads = (k, l) :: rest) :
    HighestPriorityCreativeAds creative_ads = l := by
  rw [HighestPriorityCreativeAds, h]

/-- C2 (amended: restricted to candidate lists with no negative
priorities — the code skips only priority 0, so a negative priority is
bucketed and wins, refuting the unrestricted claim): for every candidate
list whose priorities are all nonnegative, `HighestPriorityCreativeAds`
returns exactly the candidates whose priority equals the smallest
positive priority present, in input order, excluding every priority-0
candidate from any bucket; if no candidate has positive priority it
returns an empty list. -/
theorem highestPriorityCreativeAds_nonneg_spec
    (creative_ads : List CreativeAdInfo)
    (hnonneg : ∀ a ∈ creative_ads, 0 ≤ a.priority) :
    ((∀ a ∈ creative_ads, ¬0 < a.priority) →
        HighestPriorityCreativeAds creative_ads = [])
    ∧ 0 ∉ bucketKeys (SortCreativeAdsIntoBucketsByPriority creative_ads)
    ∧ ∀ m : Int, 0 < m → (∃ a ∈ creative_ads, a.priority = m) →
        (∀ a ∈ creative_ads, 0 < a.priority → m ≤ a.priority) →
        HighestPriorityCreativeAds creative_ads =
          creative_ads.filter (fun a => decide (a.priority = m)) := by
  refine ⟨?_, ?_, ?_⟩
  · intro hnopos
    cases hs : SortCreativeAdsIntoBucketsByPriority creative_ads with
    | nil => rw [HighestPriorityCreativeAds, hs]
    | cons e rest =>
      exfalso
      have hk : e.1 ∈ bucketKeys (SortCreativeAdsIntoBucketsByPriority creative_ads) := by
        rw [hs]; simp [bucketKeys]
      rw [sort_keys] at hk
      obtain ⟨hk0, a, ha, hap⟩ := hk
      have h1 := hnonneg a ha
      have h2 := hnopos a ha
      omega
  · intro h0
    rw [sort_keys] at h0
    exact h0.1 rfl
  · rintro m hm ⟨a, ha, hap⟩ hmin
    have hmkeys : m ∈ bucketKeys (SortCreativeAdsIntoBucketsByPriority creative_ads) := by
      rw [sort_keys]
      exact ⟨by omega, a, ha, hap⟩
    cases hs : SortCreativeAdsIntoBucketsByPriority creative_ads with
    | nil =>
      rw [hs] at hmkeys
      simp [bucketKeys] at hmkeys
    | cons e rest =>
      obtain ⟨k, l⟩ := e
      have hsorted := sort_sorted creative_ads
      rw [hs] at hsorted hmkeys
      have hkm : k ≤ m := bucketsSorted_head_min hsorted m hmkeys
      have hkkeys : k ∈ bucketKeys (SortCreativeAdsIntoBucketsByPriority creative_ads) := by
        rw [hs]; simp [bucketKeys]
      rw [sort_keys] at hkkeys
      obtain ⟨hk0, c, hc, hcp⟩ := hkkeys
      have h0c := hnonneg c hc
      have hkpos : 0 < k := by omega
      have hmk : m ≤ k := by
        have := hmin c hc (by omega)
        omega
      have hkm' : k = m := le_antisymm hkm hmk
      subst hkm'
      have hl : HighestPriorityCreativeAds creative_ads = l :=
        highest_of_sort_cons hs
      have hcont := sort_contents creative_ads (p := k) (by omega)
      rw [hs, bucketContents_cons, if_pos rfl] at hcont
      rw [hl, hcont]

/-- C2 counterexample: on the single-candidate list with priority −1 no
candidate has positive priority, yet `HighestPriorityCreativeAds` does
not return the empty list — the bucketer skips only priority 0, so the
unrestricted claim is false. -/
theorem highestPriorityCreativeAds_negative_counterexample :
    (∀ a ∈ [CreativeAdInfo.mk "creative-a" (-1)], ¬0 < a.priority) ∧
      HighestPriorityCreativeAds [CreativeAdInfo.mk "creative-a" (-1)] =
        [CreativeAdInfo.mk "creative-a" (-1)] := by
  decide

/-- C2 witness: the spec's own example — priorities [0, 0, 2, 2, 1]
return exactly the bucket at priority 1. -/
theorem highestPriorityCreativeAds_nonneg_spec_witness :
    HighestPriorityCreativeAds
        [CreativeAdInfo.mk "creative-a" 0, CreativeAdInfo.mk "creative-b" 0,
         CreativeAdInfo.mk "creative-c" 2, CreativeAdInfo.mk "creative-d" 2,
         CreativeAdInfo.mk "creative-e" 1] =
      List.filter (fun a => decide (a.priority = 1))
        [CreativeAdInfo.mk "creative-a" 0, CreativeAdInfo.mk "creative-b" 0,
         CreativeAdInfo.mk "creative-c" 2, CreativeAdInfo.mk "creative-d" 2,
         CreativeAdInfo.mk "creative-e" 1] :=
  (highestPriorityCreativeAds_nonneg_spec _ (by decide)).2.2 1 (by decide)
    ⟨CreativeAdInfo.mk "creative-e" 1, by decide, rfl⟩ (by decide)

/-- C9: a candidate with negative priority is not excluded by the
bucketer (only priority 0 is skipped): it lands in a bucket, and
`HighestPriorityCreativeAds` returns the bucket with the numerically
smallest (most negative) key, so a negative-priority candidate takes
precedence over every positive-priority candidate. -/
theorem negativePriority_wins_spec (creative_ads : List CreativeAdInfo)
    (a : CreativeAdInfo) (ha : a ∈ creative_ads) (hneg : a.priority < 0) :
    (∃ e ∈ SortCreativeAdsIntoBucketsByPriority creative_ads, a ∈ e.2)
    ∧ HighestPriorityCreativeAds creative_ads ≠ []
    ∧ ∃ k : Int, k ≤ a.priority ∧
        (∀ q ∈ bucketKeys (SortCreativeAdsIntoBucketsByPriority creative_ads),
          k ≤ q) ∧
        HighestPriorityCreativeAds creative_ads =
          creative_ads.filter (fun c => decide (c.priority = k)) ∧
        ∀ c ∈ HighestPriorityCreativeAds creative_ads, c.priority < 0 := by
  have hpkeys : a.priority ∈
      bucketKeys (SortCreativeAdsIntoBucketsByPriority creative_ads) := by
    rw [sort_keys]
    exact ⟨by omega, a, ha, rfl⟩
  refine ⟨?_, ?_⟩
  · refine ⟨(a.priority,
      bucketContents (SortCreativeAdsIntoBucketsByPriority creative_ads)
        a.priority), bucket_entry_mem hpkeys, ?_⟩
    show a ∈ bucketContents (SortCreativeAdsIntoBucketsByPriority creative_ads)
      a.priority
    rw [sort_contents creative_ads (show a.priority ≠ 0 by omega)]
    exact List.mem_filter.mpr ⟨ha, by simp⟩
  · cases hs : SortCreativeAdsIntoBucketsByPriority creative_ads with
    | nil =>
      rw [hs] at hpkeys
      simp [bucketKeys] at hpkeys
    | cons e rest =>
      obtain ⟨k, l⟩ := e
      have hsorted := sort_sorted creative_ads
      rw [hs] at hsorted
      have hka : k ≤ a.priority :=
        bucketsSorted_head_min hsorted a.priority (by rw [hs] at hpkeys; exact hpkeys)
      have hkkeys : k ∈
          bucketKeys (SortCreativeAdsIntoBucketsByPriority creative_ads) := by
        rw [hs]; simp [bucketKeys]
      have hk0 : k ≠ 0 := ((sort_keys creative_ads k).mp hkkeys).1
      have hl : HighestPriorityCreativeAds creative_ads = l :=
        highest_of_sort_cons hs
      have hcont := sort_contents creative_ads (p := k) hk0
      rw [hs, bucketContents_cons, if_pos rfl] at hcont
      have hfilter : HighestPriorityCreativeAds creative_ads =
          creative_ads.filter (fun c => decide (c.priority = k)) := by
        rw [hl, hcont]
      obtain ⟨c, hc, hcp⟩ := ((sort_keys creative_ads k).mp hkkeys).2
      have hkneg : k < 0 := by omega
      constructor
      · rw [hfilter]
        intro hcontra
        have hcmem : c ∈ creative_ads.filter (fun c => decide (c.priority = k)) :=
          List.mem_filter.mpr ⟨hc, by simp [hcp]⟩
        rw [hcontra] at hcmem
        simp at hcmem
      · refine ⟨k, hka, ?_, hfilter, ?_⟩
        · intro q hq
          exact bucketsSorted_head_min hsorted q hq
        · intro d hd
          rw [hfilter] at hd
          have := List.mem_filter.mp hd
          have hdk : d.priority = k := by
            have := this.2
            simpa using this
          omega

/-- C9 witness: with candidates at priorities 1 and −2, the returned
group is nonempty and (per the theorem) consists of negative-priority
candidates only. -/
theorem negativePriority_wins_spec_witness :
    HighestPriorityCreativeAds
        [CreativeAdInfo.mk "creative-p" 1, CreativeAdInfo.mk "creative-n" (-2)] ≠
      [] :=
  (negativePriority_wins_spec
    [CreativeAdInfo.mk "creative-p" 1, CreativeAdInfo.mk "creative-n" (-2)]
    (CreativeAdInfo.mk "creative-n" (-2)) (by decide) (by decide)).2.1

theorem foldl_min_le_init : ∀ (xs : List Int) (x : Int), xs.foldl min x ≤ x := by
  intro xs
  induction xs with
  | nil => intro x; simp
  | cons y ys ih =>
    intro x
    rw [List.foldl_cons]
    exact le_trans (ih (min x y)) (min_le_left x y)

theorem foldl_min_mem : ∀ (xs : List Int) (x : Int),
    xs.foldl min x = x ∨ xs.foldl min x ∈ xs := by
  intro xs
  induction xs with
  | nil => intro x; simp
  | cons y ys ih =>
    intro x
    rw [List.foldl_cons]
    rcases ih (min x y) with h | h
    · rcases min_choice x y with hm | hm
      · left; rw [h, hm]
      · right; rw [h, hm]; exact List.mem_cons_self y ys
    · right; exact List.mem_cons_of_mem _ h

theorem foldl_min_le_mem : ∀ (xs : List Int) (x y : Int), y ∈ xs →
    xs.foldl min x ≤ y := by
  intro xs
  induction xs with
  | nil => intro x y h; simp at h
  | cons z zs ih =>
    intro x y h
    rw [List.foldl_cons]
    rcases List.mem_cons.mp h with rfl | h'
    · exact le_trans (foldl_min_le_init zs (min x y)) (min_le_right x y)
    · exact ih (min x z) y h'

theorem minSql_eq_some_iff {l : List Int} {m : Int} :
    minSql l = some m ↔ m ∈ l ∧ ∀ y ∈ l, m ≤ y := by
  constructor
  · intro h
    cases l with
    | nil => simp [minSql] at h
    | cons x xs =>
      rw [minSql, Option.some_inj] at h
      constructor
      · rcases foldl_min_mem xs x with h' | h'
        · rw [← h, h']; exact List.mem_cons_self x xs
        · rw [← h]; exact List.mem_cons_of_mem _ h'
      · intro y hy
        rcases List.mem_cons.mp hy with rfl | hy'
        · rw [← h]; exact foldl_min_le_init xs y
        · rw [← h]; exact foldl_min_le_mem xs x y hy'
  · rintro ⟨hm, hlb⟩
    cases l with
    | nil => simp at hm
    | cons x xs =>
      rw [minSql, Option.some_inj]
      have h1 : xs.foldl min x ∈ x :: xs := by
        rcases foldl_min_mem xs x with h' | h'
        · rw [h']; exact List.mem_cons_self x xs
        · exact List.mem_cons_of_mem _ h'
      have h2 : xs.foldl min x ≤ m := by
        rcases List.mem_cons.mp hm with rfl | hm'
        · exact foldl_min_le_init xs m
        · exact foldl_min_le_mem xs x m hm'
      exact le_antisymm h2 (hlb _ h1)

theorem splitVector_nil {α : Type} (n : Nat) :
    SplitVector ([] : List α) n = [] := by
  rw [SplitVector]
  simp

theorem splitVector_cons {α : Type} (xs : List α) (n : Nat) (h1 : xs ≠ [])
    (h2 : n ≠ 0) :
    SplitVector xs n = xs.take n :: SplitVector (xs.drop n) n := by
  rw [SplitVector]
  rw [dif_neg]
  push_neg
  exact ⟨fun hc => h1 (List.eq_nil_of_length_eq_zero hc), h2⟩

theorem splitVector_join_aux {α : Type} (n : Nat) (hn : n ≠ 0) :
    ∀ (fuel : Nat) (xs : List α), xs.length ≤ fuel →
      (SplitVector xs n).flatten = xs := by
  intro fuel
  induction fuel with
  | zero =>
    intro xs h
    have hxs : xs = [] := List.eq_nil_of_length_eq_zero (by omega)
    subst hxs
    rw [splitVector_nil]
    rfl
  | succ fuel ih =>
    intro xs h
    by_cases hxs : xs = []
    · subst hxs; rw [splitVector_nil]; rfl
    · have h0 : xs.length ≠ 0 := fun hc => hxs (List.eq_nil_of_length_eq_zero hc)
      rw [splitVector_cons xs n hxs hn, List.flatten_cons,
        ih (xs.drop n) (by simp only [List.length_drop]; omega)]
      exact List.take_append_drop n xs

theorem splitVector_join {α : Type} (xs : List α) (n : Nat) (hn : n ≠ 0) :
    (SplitVector xs n).flatten = xs :=
  splitVector_join_aux n hn xs.length xs le_rfl

theorem splitVector_batches_aux {α : Type} (n : Nat) (hn : n ≠ 0) :
    ∀ (fuel : Nat) (xs : List α), xs.length ≤ fuel →
      ∀ b ∈ SplitVector xs n, b ≠ [] ∧ b.length ≤ n := by
  intro fuel
  induction fuel with
  | zero =>
    intro xs h b hb
    have hxs : xs = [] := List.eq_nil_of_length_eq_zero (by omega)
    subst hxs
    rw [splitVector_nil] at hb
    simp at hb
  | succ fuel ih =>
    intro xs h b hb
    by_cases hxs : xs = []
    · subst hxs; rw [splitVector_nil] at hb; simp at hb
    · have h0 : xs.length ≠ 0 := fun hc => hxs (List.eq_nil_of_length_eq_zero hc)
      rw [splitVector_cons xs n hxs hn] at hb
      rcases List.mem_cons.mp hb with rfl | hb'
      · constructor
        · intro hc
          have := congrArg List.length hc
          simp only [List.length_take, List.length_nil] at this
          omega
        · simp only [List.length_take]
          omega
      · exact ih (xs.drop n) (by simp only [List.length_drop]; omega) b hb'

theorem splitVector_batches {α : Type} (xs : List α) (n : Nat) (hn : n ≠ 0) :
    ∀ b ∈ SplitVector xs n, b ≠ [] ∧ b.length ≤ n :=
  splitVector_batches_aux n hn xs.length xs le_rfl

theorem splitVector_lengths_120 {α : Type} (xs : List α) (h : xs.length = 120) :
    (SplitVector xs 50).map List.length = [50, 50, 20] := by
  have h1 : xs ≠ [] := fun hc => by rw [hc] at h; simp at h
  have hd1 : (xs.drop 50).length = 70 := by simp [h]
  have h2 : xs.drop 50 ≠ [] := fun hc => by rw [hc] at hd1; simp at hd1
  have hd2 : ((xs.drop 50).drop 50).length = 20 := by
    simp only [List.length_drop, hd1]
  have h3 : (xs.drop 50).drop 50 ≠ [] := fun hc => by rw [hc] at hd2; simp at hd2
  have hd3 : (((xs.drop 50).drop 50).drop 50).length = 0 := by
    simp only [List.length_drop, hd2]
  have h4 : ((xs.drop 50).drop 50).drop 50 = [] :=
    List.eq_nil_of_length_eq_zero hd3
  rw [splitVector_cons xs 50 h1 (by omega),
    splitVector_cons _ 50 h2 (by omega),
    splitVector_cons _ 50 h3 (by omega), h4, splitVector_nil]
  simp only [List.map_cons, List.map_nil, List.length_take, h, hd1, hd2]
  rfl

theorem bindColumns_foldl_aux (ad_history : List AdHistoryItemInfo) :
    ∀ acc : List DBValue × Nat,
      ad_history.foldl
          (fun acc ad_history_item =>
            if ad_history_item.IsValid then
              (acc.1 ++ BindColumnsForItem ad_history_item, acc.2 + 1)
            else acc)
          acc =
        (acc.1 ++
            ((ad_history.filter AdHistoryItemInfo.IsValid).map
              BindColumnsForItem).flatten,
          acc.2 + (ad_history.filter AdHistoryItemInfo.IsValid).length) := by
  induction ad_history with
  | nil => intro acc; simp
  | cons a ads ih =>
    intro acc
    rw [List.foldl_cons, List.filter_cons]
    by_cases h : a.IsValid
    · rw [if_pos h, if_pos h, ih, List.map_cons, List.flatten_cons]
      simp [List.append_assoc]
      omega
    · rw [if_neg h, if_neg (by simpa using h), ih]

theorem bindColumns_eq (ad_history : List AdHistoryItemInfo) :
    BindColumns ad_history =
      (((ad_history.filter AdHistoryItemInfo.IsValid).map
          BindColumnsForItem).flatten,
        (ad_history.filter AdHistoryItemInfo.IsValid).length) := by
  rw [BindColumns, bindColumns_foldl_aux]
  simp

theorem bindColumns_all_invalid {ad_history : List AdHistoryItemInfo}
    (h : ∀ a ∈ ad_history, a.IsValid = false) :
    BindColumns ad_history = ([], 0) := by
  rw [bindColumns_eq]
  have hf : ad_history.filter AdHistoryItemInfo.IsValid = [] := by
    rw [List.filter_eq_nil_iff]
    intro a ha
    simp [h a ha]
  rw [hf]
  rfl

theorem getCallback_foldl_aux (rows : List (List DBValue)) :
    ∀ acc : List AdHistoryItemInfo,
      rows.foldl
          (fun ad_history mojom_row =>
            if (FromMojomRow mojom_row).IsValid then
              ad_history ++ [FromMojomRow mojom_row]
            else ad_history)
          acc =
        acc ++ (rows.map FromMojomRow).filter AdHistoryItemInfo.IsValid := by
  induction rows with
  | nil => intro acc; simp
  | cons row rest ih =>
    intro acc
    rw [List.foldl_cons, List.map_cons, List.filter_cons]
    by_cases h : (FromMojomRow row).IsValid
    · rw [if_pos h, if_pos h, ih]
      simp [List.append_assoc]
    · rw [if_neg h, if_neg (by simpa using h), ih]

theorem getCallback_none : GetCallback none = none := rfl

theorem getCallback_some (result : DBStatementResultInfo) :
    GetCallback (some result) =
      if result.result_code = ResultCode.kSuccess then
        some ((result.rows.map FromMojomRow).filter AdHistoryItemInfo.IsValid)
      else none := by
  rw [GetCallback]
  by_cases h : result.result_code = ResultCode.kSuccess
  · rw [if_pos h, if_pos h, getCallback_foldl_aux]
    rfl
  · rw [if_neg h, if_neg h]

theorem getCallback_failure {result : DBStatementResultInfo}
    (h : result.result_code ≠ ResultCode.kSuccess) :
    GetCallback (some result) = none := by
  rw [getCallback_some, if_neg h]

theorem getCallback_success {result : DBStatementResultInfo}
    (h : result.result_code = ResultCode.kSuccess) :
    GetCallback (some result) =
      some ((result.rows.map FromMojomRow).filter AdHistoryItemInfo.IsValid) := by
  rw [getCallback_some, if_pos h]

theorem insert_nonempty {mojom_transaction : DBTransactionInfo}
    {ad_history : List AdHistoryItemInfo} (h : ad_history ≠ []) :
    AdHistory.Insert mojom_transaction ad_history =
      ⟨mojom_transaction.statements ++ [AdHistory.InsertStatement ad_history]⟩ := by
  rw [AdHistory.Insert, if_neg (by simpa [List.isEmpty_iff] using h)]

theorem foldl_insert_statements (batches : List (List AdHistoryItemInfo))
    (hne : ∀ b ∈ batches, b ≠ []) :
    ∀ mojom_transaction : DBTransactionInfo,
      (batches.foldl AdHistory.Insert mojom_transaction).statements =
        mojom_transaction.statements ++
          batches.map AdHistory.InsertStatement := by
  induction batches with
  | nil => intro tx; simp
  | cons b bs ih =>
    intro tx
    rw [List.foldl_cons, insert_nonempty (hne b (List.mem_cons_self b bs)),
      ih (fun c hc => hne c (List.mem_cons_of_mem _ hc))]
    simp [List.append_assoc]

theorem saveTransaction_eq (ad_history : List AdHistoryItemInfo)
    (hne : ad_history ≠ []) :
    AdHistory.SaveTransaction kDefaultBatchSize ad_history =
      some ⟨(SplitVector ad_history kDefaultBatchSize).map
        AdHistory.InsertStatement⟩ := by
  rw [AdHistory.SaveTransaction, if_neg (by simpa [List.isEmpty_iff] using hne)]
  rw [Option.some_inj]
  have hb : ∀ b ∈ SplitVector ad_history kDefaultBatchSize, b ≠ [] :=
    fun b hb =>
      (splitVector_batches ad_history kDefaultBatchSize (by
        rw [kDefaultBatchSize]; omega) b hb).1
  have hstmts := foldl_insert_statements
    (SplitVector ad_history kDefaultBatchSize) hb ⟨[]⟩
  calc (SplitVector ad_history kDefaultBatchSize).foldl AdHistory.Insert ⟨[]⟩
      = ⟨((SplitVector ad_history kDefaultBatchSize).foldl
          AdHistory.Insert ⟨[]⟩).statements⟩ := rfl
    _ = ⟨(SplitVector ad_history kDefaultBatchSize).map
          AdHistory.InsertStatement⟩ := by rw [hstmts]; rfl

theorem save_eq_engine (engine : DBTransactionInfo → Bool)
    (ad_history : List AdHistoryItemInfo) (hne : ad_history ≠ []) :
    AdHistory.Save engine kDefaultBatchSize ad_history =
      engine ⟨(SplitVector ad_history kDefaultBatchSize).map
        AdHistory.InsertStatement⟩ := by
  have h : AdHistory.Save engine kDefaultBatchSize ad_history =
      match AdHistory.SaveTransaction kDefaultBatchSize ad_history with
      | none => true
      | some mojom_transaction => engine mojom_transaction := rfl
  rw [h, saveTransaction_eq ad_history hne]

/-- C3: `Save` on a non-empty list splits the input into consecutive
batches of at most `kDefaultBatchSize` (50) records, turns each batch
into exactly one insert statement, places all of them in one transaction
submitted to the engine, reports the engine's transaction result as its
own (so an engine failure is an overall failure), and 120 records yield
exactly 3 insert statements for 50, 50 and 20 records. -/
theorem save_batching_spec (engine : DBTransactionInfo → Bool)
    (ad_history : List AdHistoryItemInfo) (hne : ad_history ≠ []) :
    AdHistory.SaveTransaction kDefaultBatchSize ad_history =
        some ⟨(SplitVector ad_history kDefaultBatchSize).map
          AdHistory.InsertStatement⟩
    ∧ (SplitVector ad_history kDefaultBatchSize).flatten = ad_history
    ∧ (∀ b ∈ SplitVector ad_history kDefaultBatchSize,
        b ≠ [] ∧ b.length ≤ kDefaultBatchSize)
    ∧ (∀ st ∈ (SplitVector ad_history kDefaultBatchSize).map
          AdHistory.InsertStatement,
        st.operation_type = OperationType.kRun)
    ∧ AdHistory.Save engine kDefaultBatchSize ad_history =
        engine ⟨(SplitVector ad_history kDefaultBatchSize).map
          AdHistory.InsertStatement⟩
    ∧ (ad_history.length = 120 →
        (SplitVector ad_history kDefaultBatchSize).map List.length =
          [50, 50, 20]) := by
  have h50 : kDefaultBatchSize ≠ 0 := by rw [kDefaultBatchSize]; omega
  refine ⟨saveTransaction_eq ad_history hne,
    splitVector_join ad_history kDefaultBatchSize h50,
    splitVector_batches ad_history kDefaultBatchSize h50, ?_,
    save_eq_engine engine ad_history hne, ?_⟩
  · intro st hst
    rw [List.mem_map] at hst
    obtain ⟨b, -, rfl⟩ := hst
    rfl
  · intro h120
    rw [kDefaultBatchSize]
    exact splitVector_lengths_120 ad_history h120

/-- C3 witness: the batching law applied to a concrete one-record
list. -/
theorem save_batching_spec_witness :
    AdHistory.SaveTransaction kDefaultBatchSize [sampleAdHistoryItem] =
      some ⟨(SplitVector [sampleAdHistoryItem] kDefaultBatchSize).map
        AdHistory.InsertStatement⟩ :=
  (save_batching_spec (fun _ => true) [sampleAdHistoryItem]
    (List.cons_ne_nil _ _)).1

/-- C4: `Save` on the empty record list completes with success
immediately, creating no transaction and appending no statements — the
engine is never consulted. -/
theorem save_empty_spec (engine : DBTransactionInfo → Bool)
    (batch_size : Nat) :
    AdHistory.SaveTransaction batch_size [] = none ∧
      AdHistory.Save engine batch_size [] = true := by
  have h : AdHistory.SaveTransaction batch_size [] = none := by
    rw [AdHistory.SaveTransaction]
    rfl
  refine ⟨h, ?_⟩
  have h2 : AdHistory.Save engine batch_size [] =
      match AdHistory.SaveTransaction batch_size [] with
      | none => true
      | some mojom_transaction => engine mojom_transaction := rfl
  rw [h2, h]

/-- C5: a record failing the validity check is skipped when binding
insert columns (never persisted), an invalid decoded row is skipped when
assembling a read result (never returned), the remaining records and
rows keep being processed, the surrounding operation does not fail, and
no invalid record ever appears in a returned list. -/
theorem invalid_records_skipped_spec (ad_history : List AdHistoryItemInfo)
    (result : DBStatementResultInfo) :
    (BindColumns ad_history).1 =
        ((ad_history.filter AdHistoryItemInfo.IsValid).map
          BindColumnsForItem).flatten
    ∧ (BindColumns ad_history).2 =
        (ad_history.filter AdHistoryItemInfo.IsValid).length
    ∧ (result.result_code = ResultCode.kSuccess →
        GetCallback (some result) =
          some ((result.rows.map FromMojomRow).filter
            AdHistoryItemInfo.IsValid))
    ∧ (∀ l, GetCallback (some result) = some l →
        ∀ item ∈ l, item.IsValid = true) := by
  refine ⟨by rw [bindColumns_eq], by rw [bindColumns_eq], ?_, ?_⟩
  · intro h
    exact getCallback_success h
  · intro l hl item hitem
    by_cases h : result.result_code = ResultCode.kSuccess
    · rw [getCallback_success h, Option.some_inj] at hl
      subst hl
      exact (List.mem_filter.mp hitem).2
    · rw [getCallback_failure h] at hl
      exact absurd hl (by simp)

/-- C5 witness: binding a valid and an invalid record counts exactly the
valid one. -/
theorem invalid_records_skipped_spec_witness :
    (BindColumns [sampleAdHistoryItem, invalidAdHistoryItem]).2 =
      ([sampleAdHistoryItem, invalidAdHistoryItem].filter
        AdHistoryItemInfo.IsValid).length :=
  (invalid_records_skipped_spec [sampleAdHistoryItem, invalidAdHistoryItem]
    ⟨ResultCode.kSuccess, []⟩).2.1

/-- C6: every Get* operation reports "no result" (`none`) to its
completion when the engine's statement result is missing or not a
success, and a (possibly empty) decoded list exactly when the engine
reports success — execution failure is distinguishable from zero
matching rows. -/
theorem get_failure_signaling_spec (from_time to_time : Int)
    (creative_instance_id : String) (result : DBStatementResultInfo) :
    ((AdHistory.GetForDateRange from_time to_time).2 none = none
      ∧ (AdHistory.GetHighestRankedPlacementsForDateRange
          from_time to_time).2 none = none
      ∧ (AdHistory.GetForCreativeInstanceId creative_instance_id).2 none =
          none)
    ∧ (result.result_code ≠ ResultCode.kSuccess →
        (AdHistory.GetForDateRange from_time to_time).2 (some result) = none
        ∧ (AdHistory.GetHighestRankedPlacementsForDateRange
            from_time to_time).2 (some result) = none
        ∧ (AdHistory.GetForCreativeInstanceId creative_instance_id).2
            (some result) = none)
    ∧ (result.result_code = ResultCode.kSuccess →
        (AdHistory.GetForDateRange from_time to_time).2 (some result) =
          some ((result.rows.map FromMojomRow).filter
            AdHistoryItemInfo.IsValid)
        ∧ (AdHistory.GetHighestRankedPlacementsForDateRange
            from_time to_time).2 (some result) =
          some ((result.rows.map FromMojomRow).filter
            AdHistoryItemInfo.IsValid)
        ∧ (AdHistory.GetForCreativeInstanceId creative_instance_id).2
            (some result) =
          some ((result.rows.map FromMojomRow).filter
            AdHistoryItemInfo.IsValid)) := by
  refine ⟨⟨rfl, rfl, rfl⟩, ?_, ?_⟩
  · intro h
    exact ⟨getCallback_failure h, getCallback_failure h, getCallback_failure h⟩
  · intro h
    exact ⟨getCallback_success h, getCallback_success h, getCallback_success h⟩

/-- C6 witness: a failed statement result yields `none` for
`GetForDateRange`. -/
theorem get_failure_signaling_spec_witness :
    (AdHistory.GetForDateRange 0 0).2
        (some ⟨ResultCode.kFailedToExecuteStatement, []⟩) = none :=
  ((get_failure_signaling_spec 0 0 "creative-instance-1"
    ⟨ResultCode.kFailedToExecuteStatement, []⟩).2.1 (by simp)).1

theorem toAdType_adTypeToString (t : AdType) :
    ToAdType (AdType.ToString t) = t := by
  cases t <;> rfl

theorem toConfirmationType_confirmationTypeToString (c : ConfirmationType) :
    ToConfirmationType (ConfirmationType.ToString c) = c := by
  cases c <;> rfl

/-- C7: for every valid record, decoding the encoded column
representation yields the record back in every field — the timestamp (a
microseconds-since-epoch integer) losslessly, the enums through their
canonical string names, and `target_url` through its URL spec string. -/
theorem decode_encode_roundtrip (item : AdHistoryItemInfo)
    (h : item.IsValid = true) :
    FromMojomRow (BindColumnsForItem item) = item := by
  obtain ⟨created, ty, ct, pid, cid, csid, caid, aid, seg, ti, de, url⟩ := item
  have hshow : FromMojomRow (BindColumnsForItem
      ⟨created, ty, ct, pid, cid, csid, caid, aid, seg, ti, de, url⟩) =
      ⟨created, ToAdType (AdType.ToString ty),
        ToConfirmationType (ConfirmationType.ToString ct),
        pid, cid, csid, caid, aid, seg, ti, de, url⟩ := rfl
  rw [hshow, toAdType_adTypeToString, toConfirmationType_confirmationTypeToString]

/-- C7 witness: the round trip evaluated on a concrete valid record. -/
theorem decode_encode_roundtrip_witness :
    FromMojomRow (BindColumnsForItem sampleAdHistoryItem) =
      sampleAdHistoryItem :=
  decode_encode_roundtrip sampleAdHistoryItem (by decide)

/-- C10: a non-empty list of entirely invalid records does not
short-circuit like the empty list: each batch still appends one insert
statement (whose bound values are empty and whose SQL carries zero value
tuples, `row_count` 0 — its text equals that of an empty batch), and the
transaction is still submitted to the engine. -/
theorem save_all_invalid_spec (engine : DBTransactionInfo → Bool)
    (ad_history : List AdHistoryItemInfo) (hne : ad_history ≠ [])
    (hinv : ∀ a ∈ ad_history, a.IsValid = false) :
    AdHistory.SaveTransaction kDefaultBatchSize ad_history =
        some ⟨(SplitVector ad_history kDefaultBatchSize).map
          AdHistory.InsertStatement⟩
    ∧ (SplitVector ad_history kDefaultBatchSize).map
          AdHistory.InsertStatement ≠ []
    ∧ (∀ batch ∈ SplitVector ad_history kDefaultBatchSize,
        BindColumns batch = ([], 0) ∧
        AdHistory.InsertStatement batch = AdHistory.InsertStatement [])
    ∧ BuildBindColumnPlaceholders 12 0 = ""
    ∧ AdHistory.Save engine kDefaultBatchSize ad_history =
        engine ⟨(SplitVector ad_history kDefaultBatchSize).map
          AdHistory.InsertStatement⟩ := by
  have h50 : kDefaultBatchSize ≠ 0 := by rw [kDefaultBatchSize]; omega
  have hbatchinv : ∀ batch ∈ SplitVector ad_history kDefaultBatchSize,
      ∀ a ∈ batch, a.IsValid = false := by
    intro batch hbatch a ha
    apply hinv
    rw [← splitVector_join ad_history kDefaultBatchSize h50]
    rw [List.mem_flatten]
    exact ⟨batch, hbatch, ha⟩
  refine ⟨saveTransaction_eq ad_history hne, ?_, ?_, rfl,
    save_eq_engine engine ad_history hne⟩
  · intro hc
    have : SplitVector ad_history kDefaultBatchSize = [] := by
      cases hsv : SplitVector ad_history kDefaultBatchSize with
      | nil => rfl
      | cons b bs => rw [hsv] at hc; simp at hc
    have hj := splitVector_join ad_history kDefaultBatchSize h50
    rw [this] at hj
    exact hne hj.symm
  · intro batch hbatch
    have hbc : BindColumns batch = ([], 0) :=
      bindColumns_all_invalid (hbatchinv batch hbatch)
    refine ⟨hbc, ?_⟩
    rw [AdHistory.InsertStatement, AdHistory.InsertStatement,
      AdHistory.BuildInsertSql, AdHistory.BuildInsertSql, hbc]
    rfl

/-- C10 witness: saving one invalid record still builds a transaction
with one zero-row insert statement. -/
theorem save_all_invalid_spec_witness :
    AdHistory.SaveTransaction kDefaultBatchSize [invalidAdHistoryItem] =
      some ⟨(SplitVector [invalidAdHistoryItem] kDefaultBatchSize).map
        AdHistory.InsertStatement⟩ :=
  (save_all_invalid_spec (fun _ => true) [invalidAdHistoryItem]
    (List.cons_ne_nil _ _) (by decide)).1

theorem mem_prioritizedAdHistoryRows {table : List AdHistoryRow}
    {from_time to_time : Int} {s : AdHistoryRow} :
    s ∈ PrioritizedAdHistoryRows table from_time to_time ↔
      s ∈ table ∧ from_time ≤ s.created_at ∧ s.created_at ≤ to_time := by
  rw [PrioritizedAdHistoryRows, List.mem_filter]
  simp

/-- C1: the ranking query of
`GetHighestRankedPlacementsForDateRange(from, to)` assigns each row in
the inclusive `created_at` range a numeric priority from its
`confirmation_type` (click=1, dismiss=2, view=3, anything else=0), keeps
per `placement_id` exactly the rows whose priority is positive and
minimal among the positive priorities of that placement (priority-0 rows
never win, even as the only event of their placement), and returns the
survivors ordered by `created_at` descending. -/
theorem getHighestRankedPlacements_query_spec (table : List AdHistoryRow)
    (from_time to_time : Int) :
    (CasePriority "click" = 1 ∧ CasePriority "dismiss" = 2 ∧
      CasePriority "view" = 3 ∧
      ∀ s : String, s ≠ "click" → s ≠ "dismiss" → s ≠ "view" →
        CasePriority s = 0)
    ∧ List.Sorted createdAtDesc
        (GetHighestRankedPlacementsQuery table from_time to_time)
    ∧ ∀ r : AdHistoryRow,
        r ∈ GetHighestRankedPlacementsQuery table from_time to_time ↔
          r ∈ table ∧ from_time ≤ r.created_at ∧ r.created_at ≤ to_time ∧
            0 < CasePriority r.confirmation_type ∧
            ∀ s ∈ table, from_time ≤ s.created_at → s.created_at ≤ to_time →
              s.placement_id = r.placement_id →
              0 < CasePriority s.confirmation_type →
              CasePriority r.confirmation_type ≤
                CasePriority s.confirmation_type := by
  refine ⟨⟨rfl, rfl, rfl, ?_⟩, ?_, ?_⟩
  · intro s h1 h2 h3
    rw [CasePriority, if_neg h1, if_neg h2, if_neg h3]
  · rw [GetHighestRankedPlacementsQuery]
    exact List.sorted_insertionSort createdAtDesc _
  · intro r
    rw [GetHighestRankedPlacementsQuery, List.mem_insertionSort,
      FilteredAdHistoryRows, List.mem_filter, decide_eq_true_iff,
      MinPositivePriorityForPlacement, minSql_eq_some_iff]
    constructor
    · rintro ⟨hrP, hmem, hlb⟩
      obtain ⟨htab, h1, h2⟩ := mem_prioritizedAdHistoryRows.mp hrP
      rw [List.mem_map] at hmem
      obtain ⟨s, hsF, hsv⟩ := hmem
      rw [List.mem_filter, Bool.and_eq_true, decide_eq_true_iff,
        decide_eq_true_iff] at hsF
      refine ⟨htab, h1, h2, by rw [← hsv]; exact hsF.2.2, ?_⟩
      intro t ht hta htb htp htpos
      have htP : t ∈ PrioritizedAdHistoryRows table from_time to_time :=
        mem_prioritizedAdHistoryRows.mpr ⟨ht, hta, htb⟩
      apply hlb
      rw [List.mem_map]
      refine ⟨t, ?_, rfl⟩
      rw [List.mem_filter, Bool.and_eq_true, decide_eq_true_iff,
        decide_eq_true_iff]
      exact ⟨htP, htp, htpos⟩
    · rintro ⟨htab, h1, h2, hpos, hmin⟩
      have hrP : r ∈ PrioritizedAdHistoryRows table from_time to_time :=
        mem_prioritizedAdHistoryRows.mpr ⟨htab, h1, h2⟩
      refine ⟨hrP, ?_, ?_⟩
      · rw [List.mem_map]
        refine ⟨r, ?_, rfl⟩
        rw [List.mem_filter, Bool.and_eq_true, decide_eq_true_iff,
          decide_eq_true_iff]
        exact ⟨hrP, rfl, hpos⟩
      · intro y hy
        rw [List.mem_map] at hy
        obtain ⟨s, hsF, rfl⟩ := hy
        rw [List.mem_filter, Bool.and_eq_true, decide_eq_true_iff,
          decide_eq_true_iff] at hsF
        obtain ⟨hsP, hsp, hspos⟩ := hsF
        obtain ⟨hst, hsa, hsb⟩ := mem_prioritizedAdHistoryRows.mp hsP
        exact hmin s hst hsa hsb hsp hspos

/-- C8: `PurgeExpired` deletes exactly the rows whose `created_at` is at
or before `now − retention` (the cutoff itself is deleted) and retains
every later row; in particular a row one second (10^6 microseconds)
before the cutoff is removed and one a second after it is retained. -/
theorem purgeExpired_spec (now retention : Int) (table : List AdHistoryRow) :
    (∀ r : AdHistoryRow,
        r ∈ AdHistory.PurgeExpiredQuery now retention table ↔
          r ∈ table ∧ now - retention < r.created_at)
    ∧ (∀ r ∈ table, r.created_at = now - retention →
        r ∉ AdHistory.PurgeExpiredQuery now retention table)
    ∧ (∀ r ∈ table, r.created_at = now - retention - 1000000 →
        r ∉ AdHistory.PurgeExpiredQuery now retention table)
    ∧ (∀ r ∈ table, r.created_at = now - retention + 1000000 →
        r ∈ AdHistory.PurgeExpiredQuery now retention table) := by
  have hmem : ∀ r : AdHistoryRow,
      r ∈ AdHistory.PurgeExpiredQuery now retention table ↔
        r ∈ table ∧ now - retention < r.created_at := by
    intro r
    rw [AdHistory.PurgeExpiredQuery, List.mem_filter]
    simp
  refine ⟨hmem, ?_, ?_, ?_⟩
  · intro r hr hc
    rw [hmem]
    rintro ⟨-, hlt⟩
    omega
  · intro r hr hc
    rw [hmem]
    rintro ⟨-, hlt⟩
    omega
  · intro r hr hc
    rw [hmem]
    exact ⟨hr, by omega⟩

/-- C8 witness: with `now = 0` and a zero retention period, the rows one
second before and one second after the cutoff are removed and retained
respectively. -/
theorem purgeExpired_spec_witness :
    sampleAdHistoryRow (-1000000) "view" "placement-1" ∉
        AdHistory.PurgeExpiredQuery 0 0
          [sampleAdHistoryRow (-1000000) "view" "placement-1",
           sampleAdHistoryRow 1000000 "view" "placement-2"] ∧
      sampleAdHistoryRow 1000000 "view" "placement-2" ∈
        AdHistory.PurgeExpiredQuery 0 0
          [sampleAdHistoryRow (-1000000) "view" "placement-1",
           sampleAdHistoryRow 1000000 "view" "placement-2"] :=
  ⟨(purgeExpired_spec 0 0
      [sampleAdHistoryRow (-1000000) "view" "placement-1",
       sampleAdHistoryRow 1000000 "view" "placement-2"]).2.2.1
    (sampleAdHistoryRow (-1000000) "view" "placement-1") (by decide)
    (by decide),
   (purgeExpired_spec 0 0
      [sampleAdHistoryRow (-1000000) "view" "placement-1",
       sampleAdHistoryRow 1000000 "view" "placement-2"]).2.2.2
    (sampleAdHistoryRow 1000000 "view" "placement-2") (by decide)
    (by decide)⟩

/-- C1 witness: the ranking query on a concrete two-event table — a
view and a click for the same placement — returns only the click row,
by evaluating the membership characterisation at each row. -/
theorem getHighestRankedPlacements_query_spec_witness :
    sampleAdHistoryRow 1 "click" "placement-1" ∈
        GetHighestRankedPlacementsQuery
          [sampleAdHistoryRow 1 "click" "placement-1",
           sampleAdHistoryRow 2 "view" "placement-1"] 0 10 ∧
      ¬sampleAdHistoryRow 2 "view" "placement-1" ∈
        GetHighestRankedPlacementsQuery
          [sampleAdHistoryRow 1 "click" "placement-1",
           sampleAdHistoryRow 2 "view" "placement-1"] 0 10 :=
  ⟨((getHighestRankedPlacements_query_spec
      [sampleAdHistoryRow 1 "click" "placement-1",
       sampleAdHistoryRow 2 "view" "placement-1"] 0 10).2.2
    (sampleAdHistoryRow 1 "click" "placement-1")).mpr (by decide),
   fun hc =>
    absurd (((getHighestRankedPlacements_query_spec
        [sampleAdHistoryRow 1 "click" "placement-1",
         sampleAdHistoryRow 2 "view" "placement-1"] 0 10).2.2
      (sampleAdHistoryRow 2 "view" "placement-1")).mp hc) (by decide)⟩
